import Mathlib

/-!
# Verification of the Dream-mind-lucid consensus layer

Shallow embedding of `src/consensus/src/AgentRegistry.cpp` and
`src/consensus/src/DreamConsensus.cpp` (namespace `dream`), together with
theorems settling the specification claims about them.

The registry's `std::unordered_map<std::string, AgentInfo>` is modelled as an
association list holding one fixed iteration order; `registerAgent` appends the
new entry, which realises one admissible iteration order of the C++ map.
The external BFT engine (libconsensus) is opaque to this repository; it is
modelled by the small capability surface the sources consume: a `working`
flag (`isWorking()`) and the ordered list of block blobs submitted to it via
`proposeBlock`.
-/

namespace dream

/-- `AgentInfo` from `AgentRegistry.h`: address, role and permission list. -/
structure AgentInfo where
  address : String
  role : String
  permissions : List String
deriving DecidableEq

/-- The state of an `AgentRegistry`: the `agents_` map (as an association
list in iteration order) and whether an event handler is installed
(`eventHandler_` non-null).  Token data is not consulted by any claim. -/
structure AgentRegistry where
  agents : List (String × AgentInfo)
  hasHandler : Bool
deriving DecidableEq

/-- `agents_.find(name)` — lookup by unique logical name. -/
def lookupAgent (r : AgentRegistry) (name : String) : Option AgentInfo :=
  (r.agents.find? (fun p => p.1 == name)).map (fun p => p.2)

/-- `AgentRegistry::validateAddress`: full match of the regular expression
`^0x[0-9a-fA-F]{40}$`.  The character class `[0-9a-fA-F]`: -/
def isHexChar (c : Char) : Bool :=
  (decide ('0' ≤ c) && decide (c ≤ '9')) ||
  (decide ('a' ≤ c) && decide (c ≤ 'f')) ||
  (decide ('A' ≤ c) && decide (c ≤ 'F'))

/-- `AgentRegistry::validateAddress` (AgentRegistry.cpp lines 107–111):
`std::regex_match(address, "^0x[0-9a-fA-F]{40}$")`. -/
def validateAddress (address : String) : Bool :=
  match address.data with
  | c0 :: c1 :: rest => c0 == '0' && c1 == 'x' && rest.length == 40 && rest.all isHexChar
  | _ => false

/-- `AgentRegistry::notifyAgentEvent` (lines 126–133): invokes the installed
handler, if any, once.  Modelled as the list of (agent, action) invocations
it performs. -/
def notifyAgentEvent (r : AgentRegistry) (agent action : String) :
    List (String × String) :=
  if r.hasHandler then [(agent, action)] else []

/-- `AgentRegistry::registerAgent` (lines 43–55): rejects a duplicate name,
rejects an invalid address, otherwise inserts and then notifies.  Returns
(result, new registry state, handler invocations fired); the invocations are
computed from the post-insertion state, as in the source the insertion
`agents_[name] = info` precedes `notifyAgentEvent`. -/
def registerAgent (r : AgentRegistry) (name : String) (info : AgentInfo) :
    Bool × AgentRegistry × List (String × String) :=
  if (lookupAgent r name).isSome then (false, r, [])
  else if !(validateAddress info.address) then (false, r, [])
  else
    let r' : AgentRegistry := { r with agents := r.agents ++ [(name, info)] }
    (true, r', notifyAgentEvent r' name "registered")

/-- `AgentRegistry::hasPermission` (lines 57–71): scans `agents_` in
iteration order; on the first entry whose address equals `agentAddress`
returns whether its permission vector contains `permission`; `false` if no
entry matches. -/
def hasPermission (r : AgentRegistry) (agentAddress permission : String) : Bool :=
  match r.agents.find? (fun p => p.2.address == agentAddress) with
  | some p => p.2.permissions.contains permission
  | none => false

/-- `AgentRegistry::isRegisteredAgent` (lines 113–120). -/
def isRegisteredAgent (r : AgentRegistry) (address : String) : Bool :=
  r.agents.any (fun p => p.2.address == address)

/-- The external consensus engine's capability surface as consumed by
`DreamConsensus.cpp`: `isWorking()` (the `working` flag) and the ordered
queue of block-data blobs handed over through `proposeBlock` (`submitted`).
The engine object itself (libconsensus) is outside this repository. -/
structure EngineState where
  working : Bool
  submitted : List String
deriving DecidableEq

/-- The fields of class `DreamConsensus` (DreamConsensus.h): the owned
engine (`engine_`, `none` while the `unique_ptr` is null), whether the agent
handle `agent_` is set, `currentHeight_`, `latestBlockHash_`, `nodeCount_`
and `requiredSignatures_`.  `configPath_` is never consulted by a claim. -/
structure DreamConsensus where
  engine : Option EngineState
  agent : Bool
  currentHeight : Nat
  latestBlockHash : String
  nodeCount : Nat
  requiredSignatures : Nat
deriving DecidableEq

/-- The constructor `DreamConsensus::DreamConsensus` (lines 7–12): null
engine and agent, `currentHeight_ = 0`, empty latest hash, zero config. -/
def DreamConsensus.initial : DreamConsensus :=
  { engine := none, agent := false, currentHeight := 0, latestBlockHash := "",
    nodeCount := 0, requiredSignatures := 0 }

/-- `DreamConsensus::initialize` (lines 20–52): stores `nodeCount` and
`requiredSignatures` unconditionally (no validation anywhere in the body),
constructs a fresh engine, creates the agent, registers the callbacks and
starts the engine (`working := true`, empty submission queue).  The function
is total: no branch of the source rejects its arguments. -/
def initializeConsensus (s : DreamConsensus) (nodeCount requiredSignatures : Nat) :
    DreamConsensus :=
  { s with nodeCount := nodeCount, requiredSignatures := requiredSignatures,
           engine := some { working := true, submitted := [] }, agent := true }

/-- The only failure `DreamConsensus::proposeDreamBlock` can raise itself:
`std::runtime_error("Consensus engine not initialized")`. -/
inductive ProposeError where
  | notInitialized
deriving DecidableEq

/-- The block-data encoding of `proposeDreamBlock` (line 60):
`blockData = dreamerId + ":" + dreamData`. -/
def encodeBlockData (dreamerId dreamData : String) : String :=
  dreamerId ++ ":" ++ dreamData

/-- `DreamConsensus::proposeDreamBlock` (lines 54–64): throws when
`!engine_ || !agent_`; otherwise builds `blockData` and submits it with
`agent_->proposeBlock(blockData)`.  No other check appears in the body. -/
def proposeDreamBlock (s : DreamConsensus) (dreamerId dreamData : String) :
    Except ProposeError DreamConsensus :=
  match s.engine, s.agent with
  | some e, true =>
      .ok { s with
              engine := some { e with
                submitted := e.submitted ++ [encodeBlockData dreamerId dreamData] } }
  | some _, false => .error .notInitialized
  | none, _ => .error .notInitialized

/-- `DreamConsensus::getLatestDreamBlock` (lines 66–68). -/
def getLatestDreamBlock (s : DreamConsensus) : String :=
  s.latestBlockHash

/-- `DreamConsensus::getBlockHeight` (lines 74–76). -/
def getBlockHeight (s : DreamConsensus) : Nat :=
  s.currentHeight

/-- `DreamConsensus::isConsensusRunning` (lines 70–72):
`engine_ && engine_->isWorking()`. -/
def isConsensusRunning (s : DreamConsensus) : Bool :=
  match s.engine with
  | some e => e.working
  | none => false

/-- `DreamConsensus::onBlockFinalized` (lines 91–96): unconditionally
overwrites `currentHeight_` and `latestBlockHash_` with the delivered pair. -/
def onBlockFinalized (s : DreamConsensus) (blockNumber : Nat) (blockHash : String) :
    DreamConsensus :=
  { s with currentHeight := blockNumber, latestBlockHash := blockHash }

/-- Modelled from the spec: the engine is an externally owned capability
(spec §4.3, §6) whose `isWorking()` report may turn false on graceful
shutdown or fatal engine failure (`Running → Stopped`); nothing in
`DreamConsensus.cpp` controls or prevents this.  This event flips the
engine's `working` flag off and touches nothing else. -/
def engineHalt (s : DreamConsensus) : DreamConsensus :=
  { s with engine := s.engine.map (fun e => { e with working := false }) }

/-- The blobs so far submitted to the engine (empty while no engine). -/
def submittedBlocks (s : DreamConsensus) : List String :=
  match s.engine with
  | some e => e.submitted
  | none => []

/-- The caller-visible operations on a `DreamConsensus` object plus the two
externally triggered events (engine halt, finalization callback), used to
describe reachable states. -/
inductive ConsensusOp where
  | initOp (nodeCount requiredSignatures : Nat)
  | proposeOp (dreamerId dreamData : String)
  | engineHaltOp
  | finalizeOp (blockNumber : Nat) (blockHash : String)
deriving DecidableEq

/-- One step.  A throwing `proposeDreamBlock` leaves the object unchanged
(the source throws before any mutation). -/
def applyOp (s : DreamConsensus) : ConsensusOp → DreamConsensus
  | .initOp nc rs => initializeConsensus s nc rs
  | .proposeOp id d =>
      match proposeDreamBlock s id d with
      | .ok s' => s'
      | .error _ => s
  | .engineHaltOp => engineHalt s
  | .finalizeOp n h => onBlockFinalized s n h

/-- A sequence of steps from a given state. -/
def applyOps (s : DreamConsensus) (ops : List ConsensusOp) : DreamConsensus :=
  ops.foldl applyOp s

/-- Whether an operation is the finalization callback. -/
def isFinalizeOp : ConsensusOp → Bool
  | .finalizeOp _ _ => true
  | _ => false

/-- The (height, latest-hash) pair observed after each finalization callback
of a delivered sequence. -/
def finalizeTrace (s : DreamConsensus) : List (Nat × String) → List (Nat × String)
  | [] => []
  | (n, h) :: rest =>
      let s' := onBlockFinalized s n h
      (getBlockHeight s', getLatestDreamBlock s') :: finalizeTrace s' rest

end dream

namespace dream

/-! ## General lemmas shared by the claim theorems -/

/-- `String.append` concatenates the underlying character lists. -/
theorem string_data_append (a b : String) : (a ++ b).data = a.data ++ b.data := rfl

/-- Two strings with equal character lists are equal. -/
theorem string_ext_of_data {a b : String} (h : a.data = b.data) : a = b := by
  cases a; cases b; exact congrArg String.mk h

/-- Splitting at a delimiter absent from both left parts is unambiguous. -/
theorem append_colon_inj {l1 l2 r1 r2 : List Char}
    (h1 : ':' ∉ l1) (h2 : ':' ∉ l2)
    (heq : l1 ++ ':' :: r1 = l2 ++ ':' :: r2) : l1 = l2 ∧ r1 = r2 := by
  induction l1 generalizing l2 with
  | nil =>
      cases l2 with
      | nil => simpa using heq
      | cons c t =>
          simp only [List.nil_append, List.cons_append, List.cons.injEq] at heq
          exact absurd (by rw [heq.1]; exact List.mem_cons_self c t) h2
  | cons c t ih =>
      cases l2 with
      | nil =>
          simp only [List.nil_append, List.cons_append, List.cons.injEq] at heq
          exact absurd (by rw [← heq.1]; exact List.mem_cons_self c t) h1
      | cons c' t' =>
          simp only [List.cons_append, List.cons.injEq] at heq
          have := ih (fun h => h1 (List.mem_cons_of_mem _ h))
            (fun h => h2 (List.mem_cons_of_mem _ h)) heq.2
          exact ⟨by rw [heq.1, this.1], this.2⟩

/-- A fresh name is found in the registry after it is appended. -/
theorem lookupAgent_append_self (r : AgentRegistry) (name : String) (info : AgentInfo)
    (h : lookupAgent r name = none) :
    lookupAgent { r with agents := r.agents ++ [(name, info)] } name = some info := by
  have hfind : r.agents.find? (fun p => p.1 == name) = none := by
    unfold lookupAgent at h
    exact Option.map_eq_none'.mp h
  unfold lookupAgent
  simp only [List.find?_append, hfind, Option.none_orElse]
  simp [List.find?]

/-- Appending an entry for `name` does not change lookups of other names. -/
theorem lookupAgent_append_other (r : AgentRegistry) (name : String) (info : AgentInfo)
    (m : String) (hm : m ≠ name) :
    lookupAgent { r with agents := r.agents ++ [(name, info)] } m = lookupAgent r m := by
  unfold lookupAgent
  simp only [List.find?_append]
  cases hfind : r.agents.find? (fun p => p.1 == m) with
  | some p => simp
  | none =>
      have : (name == m) = false := by
        simp [beq_iff_eq]; exact fun h => hm h.symm
      simp [List.find?, this]

/-- A non-finalize operation leaves `currentHeight_` and `latestBlockHash_`
untouched: only `onBlockFinalized` writes them. -/
theorem applyOp_preserves_state (s : DreamConsensus) (op : ConsensusOp)
    (hop : isFinalizeOp op = false) :
    getBlockHeight (applyOp s op) = getBlockHeight s ∧
    getLatestDreamBlock (applyOp s op) = getLatestDreamBlock s := by
  cases op with
  | initOp nc rs => exact ⟨rfl, rfl⟩
  | proposeOp id d =>
      cases hs : s.engine with
      | none => simp [applyOp, proposeDreamBlock, hs]
      | some e =>
          cases ha : s.agent with
          | false => simp [applyOp, proposeDreamBlock, hs, ha]
          | true =>
              simp [applyOp, proposeDreamBlock, hs, ha, getBlockHeight, getLatestDreamBlock]
  | engineHaltOp => exact ⟨rfl, rfl⟩
  | finalizeOp n h => simp [isFinalizeOp] at hop

/-- A finalize-free sequence of operations preserves height and latest hash. -/
theorem applyOps_preserves_state (ops : List ConsensusOp)
    (hops : ∀ op ∈ ops, isFinalizeOp op = false) (s : DreamConsensus) :
    getBlockHeight (applyOps s ops) = getBlockHeight s ∧
    getLatestDreamBlock (applyOps s ops) = getLatestDreamBlock s := by
  induction ops generalizing s with
  | nil => exact ⟨rfl, rfl⟩
  | cons op rest ih =>
      have h1 := applyOp_preserves_state s op (hops op (List.mem_cons_self op rest))
      have h2 := ih (fun o ho => hops o (List.mem_cons_of_mem op ho)) (applyOp s op)
      exact ⟨h2.1.trans h1.1, h2.2.trans h1.2⟩

/-- After each finalization callback the observed (height, hash) pair is
exactly the delivered pair: the callback overwrites both fields. -/
theorem finalizeTrace_eq (s : DreamConsensus) (l : List (Nat × String)) :
    finalizeTrace s l = l := by
  induction l generalizing s with
  | nil => rfl
  | cons p rest ih =>
      obtain ⟨n, h⟩ := p
      simp [finalizeTrace, getBlockHeight, getLatestDreamBlock, onBlockFinalized, ih]

end dream

namespace dream

/-! ## Claim theorems -/

/-- C2: `validateAddress a` returns true if and only if `a` consists of the
two characters `0x` followed by exactly 40 hexadecimal characters (digits,
letters a–f in either case), total length 42.  (The C++ method is `const`
and mutates nothing; the embedding is a pure function.) -/
theorem validateAddress_iff (a : String) :
    validateAddress a = true ↔
      a.length = 42 ∧ a.data.take 2 = ['0', 'x'] ∧
        ∀ c ∈ a.data.drop 2,
          ('0' ≤ c ∧ c ≤ '9') ∨ ('a' ≤ c ∧ c ≤ 'f') ∨ ('A' ≤ c ∧ c ≤ 'F') := by
  obtain ⟨l⟩ := a
  match l with
  | [] => simp [validateAddress, String.length]
  | [c] => simp [validateAddress, String.length]
  | c0 :: c1 :: rest =>
      simp only [validateAddress, String.length, List.length_cons, List.take, List.drop,
        Bool.and_eq_true, beq_iff_eq, List.all_eq_true, isHexChar, Bool.or_eq_true,
        decide_eq_true_eq, List.cons.injEq, and_true, or_assoc]
      constructor
      · rintro ⟨⟨⟨h0, h1⟩, hlen⟩, hall⟩
        exact ⟨by omega, ⟨h0, h1⟩, hall⟩
      · rintro ⟨hlen, ⟨h0, h1⟩, hall⟩
        exact ⟨⟨⟨h0, h1⟩, by omega⟩, hall⟩

/-- C3: `registerAgent` returns false with no mutation and no handler
invocation when the name is taken or the address is invalid; otherwise it
inserts the entry (visible to lookups at notification time), returns true,
leaves other names untouched, invokes the installed handler exactly once
with action "registered", and a second registration of the same name then
returns false with no state change and no handler invocation. -/
theorem registerAgent_spec (r : AgentRegistry) (name : String) (info : AgentInfo) :
    (((lookupAgent r name).isSome = true ∨ validateAddress info.address = false) →
        registerAgent r name info = (false, r, [])) ∧
    (lookupAgent r name = none → validateAddress info.address = true →
        (registerAgent r name info).1 = true ∧
        lookupAgent (registerAgent r name info).2.1 name = some info ∧
        (∀ m, m ≠ name →
          lookupAgent (registerAgent r name info).2.1 m = lookupAgent r m) ∧
        (registerAgent r name info).2.2 =
          (if r.hasHandler then [(name, "registered")] else []) ∧
        registerAgent (registerAgent r name info).2.1 name info =
          (false, (registerAgent r name info).2.1, [])) := by
  constructor
  · rintro (h | h)
    · simp [registerAgent, h]
    · by_cases hs : (lookupAgent r name).isSome <;> simp [registerAgent, hs, h]
  · intro hnone hval
    have hs : (lookupAgent r name).isSome = false := by simp [hnone]
    have hreg : registerAgent r name info =
        (true, { r with agents := r.agents ++ [(name, info)] },
          notifyAgentEvent { r with agents := r.agents ++ [(name, info)] }
            name "registered") := by
      simp [registerAgent, hs, hval]
    rw [hreg]
    refine ⟨rfl, lookupAgent_append_self r name info hnone,
      fun m hm => lookupAgent_append_other r name info m hm, rfl, ?_⟩
    have hfound : (lookupAgent { r with agents := r.agents ++ [(name, info)] }
        name).isSome = true := by
      rw [lookupAgent_append_self r name info hnone]; rfl
    simp [registerAgent, hfound]

/-- C4 (amended): `hasPermission` is a first-match scan, not an existential
query: it returns false when no registered entry has the address, and when
at most one entry has the address it agrees with the existential reading
"some registered agent with this address lists the permission". -/
theorem hasPermission_first_match (r : AgentRegistry) (addr perm : String) :
    ((∀ p ∈ r.agents, p.2.address ≠ addr) → hasPermission r addr perm = false) ∧
    ((∀ p ∈ r.agents, ∀ q ∈ r.agents, p.2.address = addr → q.2.address = addr → p = q) →
      (hasPermission r addr perm = true ↔
        ∃ p ∈ r.agents, p.2.address = addr ∧ perm ∈ p.2.permissions)) := by
  constructor
  · intro h
    have hfind : r.agents.find? (fun p => p.2.address == addr) = none := by
      rw [List.find?_eq_none]
      intro p hp
      simp [beq_iff_eq]
      exact h p hp
    simp [hasPermission, hfind]
  · intro huniq
    constructor
    · intro htrue
      cases hfind : r.agents.find? (fun p => p.2.address == addr) with
      | none => simp [hasPermission, hfind] at htrue
      | some p =>
          have hmem := List.mem_of_find?_eq_some hfind
          have haddr : p.2.address = addr := by
            have := List.find?_some hfind
            simpa [beq_iff_eq] using this
          have hperm : perm ∈ p.2.permissions := by
            have hc : p.2.permissions.contains perm = true := by
              simpa [hasPermission, hfind] using htrue
            simpa using hc
          exact ⟨p, hmem, haddr, hperm⟩
    · rintro ⟨p, hmem, haddr, hperm⟩
      cases hfind : r.agents.find? (fun q => q.2.address == addr) with
      | none =>
          rw [List.find?_eq_none] at hfind
          exact absurd (by simp [beq_iff_eq, haddr]) (hfind p hmem)
      | some q =>
          have hqmem := List.mem_of_find?_eq_some hfind
          have hqaddr : q.2.address = addr := by
            have := List.find?_some hfind
            simpa [beq_iff_eq] using this
          have hqp : q = p := huniq q hqmem p hmem hqaddr haddr
          subst hqp
          simp [hasPermission, hfind]
          simpa using hperm

/-- C4 (counterexample): a registry reachable by two `registerAgent` calls
holds two names with the same (valid) address; the first entry in iteration
order lacks "propose", the second lists it.  Some registered agent with the
address lists the permission, yet `hasPermission` returns false: the claim's
existential reading fails on the first-match scan. -/
theorem hasPermission_not_existential :
    (registerAgent (registerAgent ⟨[], false⟩ "a"
        ⟨"0xaaaaaaaaaaaaaaaaaaaaaaaaaaaaaaaaaaaaaaaa", "dreamer", []⟩).2.1 "b"
        ⟨"0xaaaaaaaaaaaaaaaaaaaaaaaaaaaaaaaaaaaaaaaa", "dreamer", ["propose"]⟩).2.1 =
      ⟨[("a", ⟨"0xaaaaaaaaaaaaaaaaaaaaaaaaaaaaaaaaaaaaaaaa", "dreamer", []⟩),
        ("b", ⟨"0xaaaaaaaaaaaaaaaaaaaaaaaaaaaaaaaaaaaaaaaa", "dreamer", ["propose"]⟩)],
        false⟩ ∧
    (([("a", (⟨"0xaaaaaaaaaaaaaaaaaaaaaaaaaaaaaaaaaaaaaaaa", "dreamer", []⟩ : AgentInfo)),
       ("b", ⟨"0xaaaaaaaaaaaaaaaaaaaaaaaaaaaaaaaaaaaaaaaa", "dreamer", ["propose"]⟩)]).any
      (fun p => p.2.address == "0xaaaaaaaaaaaaaaaaaaaaaaaaaaaaaaaaaaaaaaaa" &&
        p.2.permissions.contains "propose")) = true ∧
    hasPermission
      ⟨[("a", ⟨"0xaaaaaaaaaaaaaaaaaaaaaaaaaaaaaaaaaaaaaaaa", "dreamer", []⟩),
        ("b", ⟨"0xaaaaaaaaaaaaaaaaaaaaaaaaaaaaaaaaaaaaaaaa", "dreamer", ["propose"]⟩)],
        false⟩
      "0xaaaaaaaaaaaaaaaaaaaaaaaaaaaaaaaaaaaaaaaa" "propose" = false := by
  refine ⟨by decide, by decide, by decide⟩

end dream

namespace dream

/-- C1 (amended): `proposeDreamBlock` performs no authorization check.  For
any registry whatsoever — here one that denies the "propose" permission for
the proposer — an initialized session submits the encoded payload to the
engine; the registry never enters the computation. -/
theorem proposeDreamBlock_ignores_registry (r : AgentRegistry) (s : DreamConsensus)
    (e : EngineState) (proposerId dreamData : String)
    (he : s.engine = some e) (ha : s.agent = true)
    (hperm : hasPermission r proposerId "propose" = false) :
    proposeDreamBlock s proposerId dreamData =
      .ok { s with
              engine := some { e with
                submitted := e.submitted ++ [encodeBlockData proposerId dreamData] } } := by
  simp [proposeDreamBlock, he, ha]

/-- Witness for C1 (amended) at an empty registry (which denies every
permission) and a freshly initialized session. -/
theorem proposeDreamBlock_ignores_registry_witness :
    hasPermission ⟨[], false⟩ "alice" "propose" = false ∧
    proposeDreamBlock (initializeConsensus DreamConsensus.initial 3 2) "alice" "dream" =
      .ok { initializeConsensus DreamConsensus.initial 3 2 with
              engine := some ⟨true, [] ++ [encodeBlockData "alice" "dream"]⟩ } :=
  ⟨by decide,
    proposeDreamBlock_ignores_registry ⟨[], false⟩ _ ⟨true, []⟩ "alice" "dream"
      rfl rfl (by decide)⟩

/-- C1 (counterexample): the registry denies "propose" for the proposer,
yet `proposeDreamBlock` succeeds and the payload reaches the engine's
submission queue — no `Unauthorized` failure exists in the code path. -/
theorem proposeDreamBlock_unauthorized_reaches_engine :
    hasPermission ⟨[], false⟩ "alice" "propose" = false ∧
    (proposeDreamBlock (initializeConsensus DreamConsensus.initial 3 2) "alice" "dream").isOk
      = true ∧
    (match proposeDreamBlock (initializeConsensus DreamConsensus.initial 3 2)
        "alice" "dream" with
      | .ok s' => submittedBlocks s'
      | .error _ => []) = ["alice:dream"] := by
  refine ⟨by decide, rfl, by decide⟩

/-- C5 (amended): `initialize` performs no validation of its arguments.
Even when `requiredSignatures > nodeCount` or `requiredSignatures < 1` it
stores both values, constructs the engine and starts it; no `InvalidConfig`
failure exists and the session does not remain uninitialized. -/
theorem initializeConsensus_no_validation (s : DreamConsensus) (nc rs : Nat)
    (h : nc < rs ∨ rs < 1) :
    initializeConsensus s nc rs =
      { s with
          nodeCount := nc, requiredSignatures := rs,
          engine := some ⟨true, []⟩, agent := true } ∧
    isConsensusRunning (initializeConsensus s nc rs) = true :=
  ⟨rfl, rfl⟩

/-- Witness for C5 (amended) at `nodeCount = 1 < requiredSignatures = 2`. -/
theorem initializeConsensus_no_validation_witness :
    ((1 : Nat) < 2 ∨ (2 : Nat) < 1) ∧
    (initializeConsensus DreamConsensus.initial 1 2 =
      { DreamConsensus.initial with
          nodeCount := 1, requiredSignatures := 2,
          engine := some ⟨true, []⟩, agent := true } ∧
      isConsensusRunning (initializeConsensus DreamConsensus.initial 1 2) = true) :=
  ⟨Or.inl (by decide),
    initializeConsensus_no_validation DreamConsensus.initial 1 2 (Or.inl (by decide))⟩

/-- C5 (counterexample): `initialize(1, 2)` — requiredSignatures exceeding
nodeCount — succeeds: the configuration is stored, the engine is constructed
and started, contradicting "fails with InvalidConfig and leaves the session
Uninitialized". -/
theorem initializeConsensus_accepts_invalid_config :
    (initializeConsensus DreamConsensus.initial 1 2).nodeCount = 1 ∧
    (initializeConsensus DreamConsensus.initial 1 2).requiredSignatures = 2 ∧
    (initializeConsensus DreamConsensus.initial 1 2).engine = some ⟨true, []⟩ ∧
    isConsensusRunning (initializeConsensus DreamConsensus.initial 1 2) = true := by
  decide

/-- C6 (amended): a second `initialize` on an already-initialized session is
not rejected: it overwrites the stored configuration and replaces the engine
with a freshly started one (empty submission queue); only the finalization
state carries over. -/
theorem initializeConsensus_overwrites (s : DreamConsensus)
    (h : s.engine.isSome = true) (nc rs : Nat) :
    (initializeConsensus s nc rs).nodeCount = nc ∧
    (initializeConsensus s nc rs).requiredSignatures = rs ∧
    (initializeConsensus s nc rs).engine = some ⟨true, []⟩ ∧
    (initializeConsensus s nc rs).currentHeight = s.currentHeight ∧
    (initializeConsensus s nc rs).latestBlockHash = s.latestBlockHash :=
  ⟨rfl, rfl, rfl, rfl, rfl⟩

/-- Witness for C6 (amended): re-initializing an initialized session with
new parameters. -/
theorem initializeConsensus_overwrites_witness :
    ((initializeConsensus DreamConsensus.initial 3 2).engine.isSome = true) ∧
    ((initializeConsensus (initializeConsensus DreamConsensus.initial 3 2) 5 4).nodeCount
        = 5 ∧
      (initializeConsensus (initializeConsensus DreamConsensus.initial 3 2)
        5 4).requiredSignatures = 4 ∧
      (initializeConsensus (initializeConsensus DreamConsensus.initial 3 2) 5 4).engine =
        some ⟨true, []⟩ ∧
      (initializeConsensus (initializeConsensus DreamConsensus.initial 3 2)
          5 4).currentHeight =
        (initializeConsensus DreamConsensus.initial 3 2).currentHeight ∧
      (initializeConsensus (initializeConsensus DreamConsensus.initial 3 2)
          5 4).latestBlockHash =
        (initializeConsensus DreamConsensus.initial 3 2).latestBlockHash) :=
  ⟨rfl, initializeConsensus_overwrites (initializeConsensus DreamConsensus.initial 3 2)
    rfl 5 4⟩

/-- C6 (counterexample): after a successful `initialize(3, 2)` and one
submitted proposal, a second `initialize(5, 4)` is not rejected with
`AlreadyInitialized`: it reconfigures (nodeCount 5, requiredSignatures 4)
and restarts the engine, discarding the pending submission. -/
theorem initializeConsensus_twice_succeeds :
    (initializeConsensus (applyOps DreamConsensus.initial
        [ConsensusOp.initOp 3 2, ConsensusOp.proposeOp "alice" "dream"]) 5 4).nodeCount
      = 5 ∧
    (initializeConsensus (applyOps DreamConsensus.initial
        [ConsensusOp.initOp 3 2,
          ConsensusOp.proposeOp "alice" "dream"]) 5 4).requiredSignatures = 4 ∧
    submittedBlocks (applyOps DreamConsensus.initial
        [ConsensusOp.initOp 3 2, ConsensusOp.proposeOp "alice" "dream"]) = ["alice:dream"] ∧
    submittedBlocks (initializeConsensus (applyOps DreamConsensus.initial
        [ConsensusOp.initOp 3 2, ConsensusOp.proposeOp "alice" "dream"]) 5 4) = [] := by
  decide

end dream

namespace dream

/-- C7 (amended): the delimiter-join `proposerId + ":" + payload` is
injective only on pairs whose proposer id contains no ':' — nothing in the
code forbids the delimiter inside either field, and distinct pairs collide
otherwise (see the counterexample). -/
theorem encodeBlockData_inj_of_colon_free (id1 p1 id2 p2 : String)
    (h1 : ':' ∉ id1.data) (h2 : ':' ∉ id2.data)
    (heq : encodeBlockData id1 p1 = encodeBlockData id2 p2) :
    id1 = id2 ∧ p1 = p2 := by
  have hd : id1.data ++ ':' :: p1.data = id2.data ++ ':' :: p2.data := by
    have h := congrArg String.data heq
    simp only [encodeBlockData, string_data_append] at h
    simpa [List.append_assoc] using h
  obtain ⟨ha, hb⟩ := append_colon_inj h1 h2 hd
  exact ⟨string_ext_of_data ha, string_ext_of_data hb⟩

/-- Witness for C7 (amended) at colon-free proposer ids. -/
theorem encodeBlockData_inj_witness :
    (':' ∉ ("alice" : String).data) ∧
    (("alice" : String) = "alice" ∧ ("dream" : String) = "dream") :=
  ⟨by decide, encodeBlockData_inj_of_colon_free "alice" "dream" "alice" "dream"
    (by decide) (by decide) rfl⟩

/-- C7 (counterexample): the distinct pairs ("a:b", "c") and ("a", "b:c")
encode to the same blob "a:b:c" — the encoding is ambiguous and the pair
cannot be recovered from the blob. -/
theorem encodeBlockData_ambiguous :
    encodeBlockData "a:b" "c" = encodeBlockData "a" "b:c" ∧
    (("a:b" : String), ("c" : String)) ≠ (("a" : String), ("b:c" : String)) := by
  constructor
  · rfl
  · decide

/-- C8 (amended): `proposeDreamBlock` fails (with the code's only error,
"Consensus engine not initialized") exactly when the engine or agent handle
is missing, submitting nothing and leaving the state unchanged; in
particular every call before `initialize` fails.  When both handles exist
it submits the encoded block and returns — the engine's `isWorking()`
status is not consulted (see the counterexample), and the call does not
wait for finalization (the result state carries only the queued submission,
no height change). -/
theorem proposeDreamBlock_checks_initialization (s : DreamConsensus) (id data : String) :
    ((s.engine = none ∨ s.agent = false) →
        proposeDreamBlock s id data = .error .notInitialized ∧
        applyOp s (.proposeOp id data) = s) ∧
    (∀ e, s.engine = some e → s.agent = true →
        proposeDreamBlock s id data =
          .ok { s with
                  engine := some { e with
                    submitted := e.submitted ++ [encodeBlockData id data] } }) ∧
    proposeDreamBlock DreamConsensus.initial id data = .error .notInitialized := by
  refine ⟨?_, ?_, rfl⟩
  · rintro (he | ha)
    · have h1 : proposeDreamBlock s id data = .error .notInitialized := by
        simp [proposeDreamBlock, he]
      exact ⟨h1, by simp [applyOp, h1]⟩
    · have h1 : proposeDreamBlock s id data = .error .notInitialized := by
        cases hs : s.engine <;> simp [proposeDreamBlock, hs, ha]
      exact ⟨h1, by simp [applyOp, h1]⟩
  · intro e he ha
    simp [proposeDreamBlock, he, ha]

/-- C8 (counterexample): a session whose engine has stopped working is not
Running (`isConsensusRunning` is false), yet `proposeDreamBlock` does not
fail with NotRunning — it succeeds and submits the payload, because the
code checks only that the engine and agent handles exist. -/
theorem proposeDreamBlock_accepts_stopped_engine :
    isConsensusRunning (engineHalt (initializeConsensus DreamConsensus.initial 3 2))
      = false ∧
    (proposeDreamBlock (engineHalt (initializeConsensus DreamConsensus.initial 3 2))
        "alice" "dream").isOk = true ∧
    (match proposeDreamBlock (engineHalt (initializeConsensus DreamConsensus.initial 3 2))
        "alice" "dream" with
      | .ok s' => submittedBlocks s'
      | .error _ => []) = ["alice:dream"] := by
  refine ⟨rfl, rfl, by decide⟩

/-- C9: starting from the constructor, any finalize-free operation sequence
leaves `getBlockHeight() = 0` and `getLatestDreamBlock() = ""` (the
zero/empty defaults, readable in every state — the reads are pure); and for
any strictly increasing sequence of finalization callbacks the pair
observed after each callback is exactly the delivered (height, hash) pair,
so the observed heights are monotonically non-decreasing and the hash
always belongs to the same delivery as the height. -/
theorem consensus_defaults_and_finalize_order (ops : List ConsensusOp)
    (hops : ∀ op ∈ ops, isFinalizeOp op = false)
    (l : List (Nat × String)) (hinc : (l.map Prod.fst).Chain' (· < ·)) :
    getBlockHeight (applyOps DreamConsensus.initial ops) = 0 ∧
    getLatestDreamBlock (applyOps DreamConsensus.initial ops) = "" ∧
    finalizeTrace (applyOps DreamConsensus.initial ops) l = l ∧
    ((finalizeTrace (applyOps DreamConsensus.initial ops) l).map Prod.fst).Chain' (· ≤ ·)
    := by
  have hpres := applyOps_preserves_state ops hops DreamConsensus.initial
  refine ⟨hpres.1, hpres.2, finalizeTrace_eq _ l, ?_⟩
  rw [finalizeTrace_eq]
  exact List.Chain'.imp (fun a b h => le_of_lt h) hinc

/-- Witness for C9: initialize-then-propose, followed by finalization
callbacks for heights 1, 2, 3. -/
theorem consensus_defaults_witness :
    ((∀ op ∈ ([ConsensusOp.initOp 3 2,
        ConsensusOp.proposeOp "alice" "dream"] : List ConsensusOp),
        isFinalizeOp op = false) ∧
      ((([(1, "h1"), (2, "h2"), (3, "h3")] : List (Nat × String)).map
        Prod.fst).Chain' (· < ·))) ∧
    (getBlockHeight (applyOps DreamConsensus.initial
        [ConsensusOp.initOp 3 2, ConsensusOp.proposeOp "alice" "dream"]) = 0 ∧
      getLatestDreamBlock (applyOps DreamConsensus.initial
        [ConsensusOp.initOp 3 2, ConsensusOp.proposeOp "alice" "dream"]) = "" ∧
      finalizeTrace (applyOps DreamConsensus.initial
        [ConsensusOp.initOp 3 2, ConsensusOp.proposeOp "alice" "dream"])
        [(1, "h1"), (2, "h2"), (3, "h3")] = [(1, "h1"), (2, "h2"), (3, "h3")] ∧
      ((finalizeTrace (applyOps DreamConsensus.initial
          [ConsensusOp.initOp 3 2, ConsensusOp.proposeOp "alice" "dream"])
          [(1, "h1"), (2, "h2"), (3, "h3")]).map Prod.fst).Chain' (· ≤ ·)) :=
  ⟨⟨by decide, by simp [List.chain'_cons]⟩,
    consensus_defaults_and_finalize_order _ (by decide) _ (by simp [List.chain'_cons])⟩

/-- C10: `onBlockFinalized(n, h)` unconditionally overwrites the stored
state — afterwards `getBlockHeight() = n` and `getLatestDreamBlock() = h`
for every prior state; no monotonicity is enforced, and a callback with `n`
below the current height strictly decreases the reported height. -/
theorem onBlockFinalized_overwrites (s : DreamConsensus) (n : Nat) (h : String) :
    getBlockHeight (onBlockFinalized s n h) = n ∧
    getLatestDreamBlock (onBlockFinalized s n h) = h ∧
    (n < getBlockHeight s → getBlockHeight (onBlockFinalized s n h) < getBlockHeight s) :=
  ⟨rfl, rfl, fun hlt => hlt⟩

end dream
